import Mathlib

/-!
Shallow embedding of the MatterTune finetuning harness.

Source files embedded here:
- src/mattertune/finetune/base.py (FinetuneModuleBase and its step methods)
- src/mattertune/backbones/eqV2/model.py
- src/mattertune/backbones/jmp/model.py and src/mattertune/backbones/jmp/util.py

Modelling conventions:
- A scalar torch tensor is modelled as its rational value together with the
  set of parameter ids reachable through its autograd graph (multiplying by
  0.0 keeps the graph, hence keeps the id set).
- Python exceptions are modelled with Except; PyErr enumerates the exception
  classes the embedded code can raise.
- Python dicts keyed by strings are association lists with
  overwrite-on-insert semantics.
-/

/-- The Python exception classes raised by the embedded code. -/
inductive PyErr where
  | valueError (msg : String)
  | keyError (key : String)
  | typeError (msg : String)
  | runtimeError (msg : String)
  | assertError (msg : String)
  deriving DecidableEq

/-- Exceptions that can escape FinetuneModuleBase.forward: either the private
control-flow exception used to skip a batch (src/mattertune/finetune/base.py,
class _SkipBatchError), or an ordinary Python exception. -/
inductive Exc where
  | skipBatch
  | py (e : PyErr)
  deriving DecidableEq

/-- A scalar torch tensor: its numeric value and the ids of the parameters
its autograd graph is connected to. -/
structure Tensor where
  val : ℚ
  deps : Finset ℕ
  deriving DecidableEq

/-- A Python numeric literal viewed as a tensor (empty autograd graph). -/
def pyLit (q : ℚ) : Tensor := ⟨q, ∅⟩

/-- Tensor addition: values add, autograd graphs merge. -/
def Tensor.addT (a b : Tensor) : Tensor := ⟨a.val + b.val, a.deps ∪ b.deps⟩

/-- Multiplication of a tensor by a Python scalar. The autograd graph is kept
even when the scalar is 0.0. -/
def Tensor.mulScalar (t : Tensor) (c : ℚ) : Tensor := ⟨t.val * c, t.deps⟩

/-- A model parameter: an id, its flattened element list, and its
requires_grad flag. -/
structure Param where
  pid : ℕ
  values : List ℚ
  requires_grad : Bool
  deriving DecidableEq

/-- p.sum() for a parameter p: a zero-dimensional tensor whose autograd graph
reaches exactly p. -/
def Param.sumT (p : Param) : Tensor := ⟨p.values.sum, {p.pid}⟩

/-- A Python dict with string keys, as an association list. -/
abbrev PyDict (α : Type) := List (String × α)

/-- d[k] lookup (None when absent; callers map absence to KeyError). -/
def dictLookup {α : Type} : PyDict α → String → Option α
  | [], _ => none
  | kv :: rest, k => if kv.1 = k then some kv.2 else dictLookup rest k

/-- d[k] = v assignment: overwrite in place, or append a new binding. -/
def dictInsert {α : Type} : PyDict α → String → α → PyDict α
  | [], k, v => [(k, v)]
  | kv :: rest, k, v => if kv.1 = k then (k, v) :: rest else kv :: dictInsert rest k v

/-- The key list of a dict. -/
def dictKeys {α : Type} (d : PyDict α) : List String := d.map Prod.fst

/-- One self.log(...) record emitted during a step: either a warning from the
logging module or a logged scalar. -/
inductive LogEntry where
  | warn (msg : String)
  | scalar (key : String) (v : ℚ)
  deriving DecidableEq

/-- Loss configurations live in finetune/loss.py, which is not among the
sources; only their identity matters here, so they are opaque tags. -/
abbrev LossKind := ℕ

/-- The tag of a property config class from finetune/properties.py (not among
the sources; the constructors mirror the classes matched on by the backbones,
with otherProp standing for any further PropertyConfig subclass). -/
inductive PropKind where
  | energy
  | forces (conservative : Bool)
  | stresses (conservative : Bool)
  | graph (reduction : String)
  | otherProp
  deriving DecidableEq

/-- The fields of a property config that the embedded code reads:
name, loss, loss_coefficient, and the class tag. -/
structure PropertyConfig where
  name : String
  kind : PropKind
  loss : LossKind
  loss_coefficient : ℚ
  deriving DecidableEq

/-- A Python value passed around the step methods: a tensor, or a nested
dict of tensors (the predicted_properties entry of a ModelPrediction). -/
inductive PyVal where
  | tensor (t : Tensor)
  | dictV (d : PyDict Tensor)
  deriving DecidableEq

/-- Coerce a PyVal to a tensor. The dictV branch is never reached by any
theorem below: it would correspond to Python calling a loss function on the
nested dict, which only happens for a property literally named
predicted_properties. -/
def PyVal.asTensor : PyVal → Tensor
  | .tensor t => t
  | .dictV _ => pyLit 0

/-- The ModelPrediction TypedDict built by the backbones model_forward:
a dict whose single entry predicted_properties holds the per-property
prediction dict (return_backbone_output is False in every step). -/
def wrapPrediction (d : PyDict Tensor) : PyDict PyVal :=
  [("predicted_properties", PyVal.dictV d)]

/-- An abstract FinetuneMetrics callable, as invoked by _common_step:
it receives the object returned by self(batch) and the labels dict, and
yields named scalars (metrics.py is not among the sources). -/
abbrev MetricsFn := PyDict PyVal → PyDict Tensor → List (String × ℚ)

/-- The batch type is opaque to base.py. -/
abbrev TBatch := ℕ

/-- The state of a FinetuneModuleBase instance: its config flag, parameters,
property list, and the abstract methods a backbone implements. model_forward
returns the ModelPrediction dict (its predicted_properties entry). -/
structure FinetuneModuleBase where
  ignore_gpu_batch_transform_error : Bool
  params : List Param
  properties : List PropertyConfig
  gpu_batch_transform : TBatch → Except PyErr TBatch
  model_forward : TBatch → Except PyErr (PyDict PyVal)
  batch_to_labels : TBatch → PyDict Tensor
  train_metrics : MetricsFn
  val_metrics : MetricsFn
  test_metrics : MetricsFn

/-- FinetuneModuleBase.forward: under ignore_gpu_batch_transform_error, a
failing gpu_batch_transform is logged as a warning and re-raised as
_SkipBatchError; otherwise the transform error propagates unchanged. Errors
of model_forward always propagate unchanged. model_forward_context is a
trivial yield for both embedded backbones. -/
def FinetuneModuleBase.forward (m : FinetuneModuleBase) (b : TBatch) :
    List LogEntry × Except Exc (PyDict PyVal) :=
  if m.ignore_gpu_batch_transform_error then
    match m.gpu_batch_transform b with
    | .error _ => ([.warn "Error in forward pass. Skipping batch."], .error .skipBatch)
    | .ok b2 =>
      match m.model_forward b2 with
      | .error e => ([], .error (.py e))
      | .ok preds => ([], .ok preds)
  else
    match m.gpu_batch_transform b with
    | .error e => ([], .error (.py e))
    | .ok b2 =>
      match m.model_forward b2 with
      | .error e => ([], .error (.py e))
      | .ok preds => ([], .ok preds)

/-- The loop body of FinetuneModuleBase._compute_loss: for each property in
order, look up the prediction and the label by prop.name (KeyError on a
missing key), apply the loss function, scale by loss_coefficient, and log
the per-property loss. Returns the log records and the loss list. -/
def computeLossGo {α : Type} (compute_loss : LossKind → α → α → Tensor)
    (preds labels : PyDict α) (lg : Bool) (logPre : String) :
    List PropertyConfig → Except PyErr (List LogEntry × List Tensor)
  | [] => .ok ([], [])
  | p :: ps =>
    match dictLookup preds p.name with
    | none => .error (.keyError p.name)
    | some pr =>
      match dictLookup labels p.name with
      | none => .error (.keyError p.name)
      | some lb =>
        let l := (compute_loss p.loss pr lb).mulScalar p.loss_coefficient
        match computeLossGo compute_loss preds labels lg logPre ps with
        | .error e => .error e
        | .ok (logs, ls) =>
          .ok ((if lg then [LogEntry.scalar (logPre ++ p.name ++ "_loss") l.val] else []) ++ logs,
               l :: ls)

/-- FinetuneModuleBase._compute_loss: the per-property losses are summed with
Python sum (which starts from the int 0) and the total is logged. The value
type is generic because Python is untyped at the call site. -/
def _compute_loss {α : Type} (compute_loss : LossKind → α → α → Tensor)
    (props : List PropertyConfig) (preds labels : PyDict α)
    (lg : Bool) (logPre : String) : Except PyErr (List LogEntry × Tensor) :=
  match computeLossGo compute_loss preds labels lg logPre props with
  | .error e => .error e
  | .ok (logs, ls) =>
    let loss := ls.foldl Tensor.addT (pyLit 0)
    .ok (logs ++ (if lg then [LogEntry.scalar (logPre ++ "total_loss") loss.val] else []), loss)

/-- The substitute loss built by _zero_loss inside _common_step:
sum(p.sum() * 0.0 for p in self.parameters()), with Python sum starting from
the int 0. Numerically zero, but its autograd graph reaches every
parameter. -/
def zeroLoss (ps : List Param) : Tensor :=
  ps.foldl (fun acc p => acc.addT (p.sumT.mulScalar 0)) (pyLit 0)

/-- What _common_step returns: the (predictions, loss) pair of the normal
path, or the bare zero-dimensional substitute tensor of the skip path. -/
inductive StepValue where
  | pair (predictions : PyDict PyVal) (loss : Tensor)
  | scalar0d (t : Tensor)
  deriving DecidableEq

/-- FinetuneModuleBase._common_step. Only _SkipBatchError is caught; it is
answered with the bare substitute tensor. On the normal path the object
returned by self(batch) (the ModelPrediction dict) is passed to
_compute_loss as the predictions argument, and metric scalars are logged
under the step name. -/
def FinetuneModuleBase._common_step (m : FinetuneModuleBase)
    (compute_loss : LossKind → Tensor → Tensor → Tensor) (b : TBatch)
    (nm : String) (metrics : Option MetricsFn) (lg : Bool) :
    List LogEntry × Except PyErr StepValue :=
  match m.forward b with
  | (logs, .error .skipBatch) => (logs, .ok (.scalar0d (zeroLoss m.params)))
  | (logs, .error (.py e)) => (logs, .error e)
  | (logs, .ok predictions) =>
    let labels := m.batch_to_labels b
    let labelsV : PyDict PyVal := labels.map (fun kv => (kv.1, PyVal.tensor kv.2))
    match _compute_loss (fun k a c => compute_loss k a.asTensor c.asTensor)
        m.properties predictions labelsV lg (nm ++ "/") with
    | .error e => (logs, .error e)
    | .ok (logs2, loss) =>
      let mlogs :=
        match metrics with
        | some f =>
          if lg then
            (f predictions labels).map (fun kv => LogEntry.scalar (nm ++ "/" ++ kv.1) kv.2)
          else []
        | none => []
      (logs ++ logs2 ++ mlogs, .ok (.pair predictions loss))

/-- FinetuneModuleBase.training_step. The tuple unpacking of the result of
_common_step succeeds on the (predictions, loss) pair; on the skip path
_common_step returns a bare zero-dimensional tensor, and unpacking it raises
TypeError (iterating a 0-d tensor). -/
def FinetuneModuleBase.training_step (m : FinetuneModuleBase)
    (compute_loss : LossKind → Tensor → Tensor → Tensor) (b : TBatch) :
    List LogEntry × Except PyErr Tensor :=
  match m._common_step compute_loss b "train" (some m.train_metrics) true with
  | (logs, .error e) => (logs, .error e)
  | (logs, .ok (.pair _ loss)) => (logs, .ok loss)
  | (logs, .ok (.scalar0d _)) => (logs, .error (.typeError "iteration over a 0-d tensor"))

/-- FinetuneModuleBase.validation_step: the result of _common_step is
discarded without unpacking. -/
def FinetuneModuleBase.validation_step (m : FinetuneModuleBase)
    (compute_loss : LossKind → Tensor → Tensor → Tensor) (b : TBatch) :
    List LogEntry × Except PyErr Unit :=
  match m._common_step compute_loss b "val" (some m.val_metrics) true with
  | (logs, .error e) => (logs, .error e)
  | (logs, .ok _) => (logs, .ok ())

/-- FinetuneModuleBase.test_step: the result of _common_step is discarded
without unpacking. -/
def FinetuneModuleBase.test_step (m : FinetuneModuleBase)
    (compute_loss : LossKind → Tensor → Tensor → Tensor) (b : TBatch) :
    List LogEntry × Except PyErr Unit :=
  match m._common_step compute_loss b "test" (some m.test_metrics) true with
  | (logs, .error e) => (logs, .error e)
  | (logs, .ok _) => (logs, .ok ())

/-- bool(t) for a torch tensor t: defined for one-element tensors only;
otherwise RuntimeError. -/
def tensorTruthy (vals : List ℚ) : Except PyErr Bool :=
  match vals with
  | [v] => .ok (decide (v ≠ 0))
  | [] => .error (.runtimeError "Boolean value of Tensor with no values is ambiguous")
  | _ => .error (.runtimeError "Boolean value of Tensor with more than one element is ambiguous")

/-- any(p for p in self.parameters() if p.requires_grad), as written in
FinetuneModuleBase.__init__: the generator yields the parameter tensors
themselves, and any() evaluates the truthiness of each yielded tensor,
short-circuiting on the first truthy one. -/
def anyTruthyGradParam : List Param → Except PyErr Bool
  | [] => .ok false
  | p :: ps =>
    if p.requires_grad then
      match tensorTruthy p.values with
      | .error e => .error e
      | .ok true => .ok true
      | .ok false => anyTruthyGradParam ps
    else anyTruthyGradParam ps

/-- The trainability check at the end of FinetuneModuleBase.__init__
(save_hyperparameters, create_model and create_metrics have already run
when it is reached). -/
def initGradCheck (ps : List Param) : Except PyErr Unit :=
  match anyTruthyGradParam ps with
  | .error e => .error e
  | .ok true => .ok ()
  | .ok false =>
    .error (.valueError "No parameters require gradients. Please ensure that some parts of the model are trainable.")

/-!
EqV2 backbone adapter (src/mattertune/backbones/eqV2/model.py).
-/

/-- The third-party head classes the eqV2 adapter can instantiate, with the
constructor arguments the adapter passes. -/
inductive EqV2Head where
  | energyHead (reduce : String)
  | forceHead
  | rank2Head (output_name : String)
      (use_source_target_embedding decompose extensive : Bool)
  deriving DecidableEq

/-- EqV2BackboneModule._create_output_head: dispatch on the property config
tag. Conservative forces or stresses and an unsupported graph reduction hit
an assert statement; any other property class hits the final ValueError. -/
def eqv2_create_output_head (p : PropertyConfig) : Except PyErr EqV2Head :=
  match p.kind with
  | .energy => .ok (.energyHead "sum")
  | .forces conservative =>
    if conservative then
      .error (.assertError "Conservative forces are not supported for eqV2 (yet)")
    else .ok .forceHead
  | .stresses conservative =>
    if conservative then
      .error (.assertError "Conservative stresses are not supported for eqV2 (yet)")
    else .ok (.rank2Head "stress" true true false)
  | .graph reduction =>
    if reduction = "sum" ∨ reduction = "mean" then .ok (.energyHead reduction)
    else
      .error (.assertError ("Unsupported reduction: " ++ reduction ++ " for eqV2. Please use sum or mean."))
  | .otherProp => .error (.valueError "Unsupported property config for eqV2. Please ask the maintainers of eqV2 for support")

/-- The head-construction loop of EqV2BackboneModule.create_model:
self.output_heads[prop.name] = self._create_output_head(prop), in order. -/
def eqv2_create_heads_go (acc : PyDict EqV2Head) :
    List PropertyConfig → Except PyErr (PyDict EqV2Head)
  | [] => .ok acc
  | p :: ps =>
    match eqv2_create_output_head p with
    | .error e => .error e
    | .ok h => eqv2_create_heads_go (dictInsert acc p.name h) ps

/-- EqV2BackboneModule.create_model, restricted to the output_heads dict it
builds (the backbone extraction is checkpoint I/O). -/
def eqv2_create_heads (props : List PropertyConfig) : Except PyErr (PyDict EqV2Head) :=
  eqv2_create_heads_go [] props

/-- The prediction the eqV2 model_forward extracts from one head output dict,
by property class: the energy key for energy and graph properties, the
forces key for forces, and the recombination of the two stress irreps for
stresses. A missing key is a KeyError; a property class outside the four
known ones hits assert_never. The head output dict and the recombination are
abstract inputs here (the numeric recombination is modelled separately by
_combine_scalar_irrep2). -/
def eqv2HeadPred (p : PropertyConfig) (headOutput : PyDict Tensor)
    (combineT : Tensor → Tensor → Tensor) : Except PyErr Tensor :=
  match p.kind with
  | .energy =>
    match dictLookup headOutput "energy" with
    | some t => .ok t
    | none => .error (.keyError "energy")
  | .forces _ =>
    match dictLookup headOutput "forces" with
    | some t => .ok t
    | none => .error (.keyError "forces")
  | .stresses _ =>
    match dictLookup headOutput "stress_isotropic" with
    | none => .error (.keyError "stress_isotropic")
    | some r0 =>
      match dictLookup headOutput "stress_anisotropic" with
      | none => .error (.keyError "stress_anisotropic")
      | some r2 => .ok (combineT r0 r2)
  | .graph _ =>
    match dictLookup headOutput "energy" with
    | some t => .ok t
    | none => .error (.keyError "energy")
  | .otherProp => .error (.assertError "assert_never")

/-- The loop of EqV2BackboneModule.model_forward over self.output_heads:
each head name is asserted to match some configured property (the first such
property is used), the head is run (headOut gives its output dict on the
current batch), and the extracted prediction is stored under the head
name. -/
def eqv2_model_forward_go (props : List PropertyConfig)
    (headOut : String → PyDict Tensor) (combineT : Tensor → Tensor → Tensor)
    (acc : PyDict Tensor) : List (String × EqV2Head) → Except PyErr (PyDict Tensor)
  | [] => .ok acc
  | (nm, _) :: rest =>
    match props.find? (fun p => p.name == nm) with
    | none => .error (.assertError ("Property " ++ nm ++ " not found in properties. This should not happen, please report this."))
    | some p =>
      match eqv2HeadPred p (headOut nm) combineT with
      | .error e => .error e
      | .ok pred => eqv2_model_forward_go props headOut combineT (dictInsert acc nm pred) rest

/-- EqV2BackboneModule.model_forward, restricted to the predicted_properties
dict it assembles. -/
def eqv2_model_forward (props : List PropertyConfig) (heads : PyDict EqV2Head)
    (headOut : String → PyDict Tensor) (combineT : Tensor → Tensor → Tensor) :
    Except PyErr (PyDict Tensor) :=
  eqv2_model_forward_go props headOut combineT [] heads

/-- The batch attribute read by EqV2BackboneModule.batch_to_labels for a
property: HARDCODED_NAMES maps the energy, forces and stresses classes to
the fixed keys energy, forces and stress, and every other class defaults to
prop.name. -/
def eqv2BatchKey (p : PropertyConfig) : String :=
  match p.kind with
  | .energy => "energy"
  | .forces _ => "forces"
  | .stresses _ => "stress"
  | .graph _ => p.name
  | .otherProp => p.name

/-- The loop of EqV2BackboneModule.batch_to_labels:
labels[prop.name] = batch[batch_prop_name], a KeyError when the batch lacks
the attribute. -/
def eqv2_batch_to_labels_go (batch : PyDict Tensor) (acc : PyDict Tensor) :
    List PropertyConfig → Except PyErr (PyDict Tensor)
  | [] => .ok acc
  | p :: ps =>
    match dictLookup batch (eqv2BatchKey p) with
    | none => .error (.keyError (eqv2BatchKey p))
    | some v => eqv2_batch_to_labels_go batch (dictInsert acc p.name v) ps

/-- EqV2BackboneModule.batch_to_labels. -/
def eqv2_batch_to_labels (props : List PropertyConfig) (batch : PyDict Tensor) :
    Except PyErr (PyDict Tensor) :=
  eqv2_batch_to_labels_go batch [] props

/-!
The scalar/irrep2 stress recombination of the eqV2 adapter
(_combine_scalar_irrep2 in src/mattertune/backbones/eqV2/model.py), modelled
on exact rationals with tensors as index functions.
-/

/-- torch.cat([scalar.reshape(-1, 1), vector, irrep2], dim=1) where vector is
the detached (n, 3) zero tensor: component 0 is the scalar, components 1-3
are the zeros, components 4-8 are the irrep2 part. -/
def catIrreps {n : ℕ} (scalar : Fin n → ℚ) (irrep2 : Fin n → Fin 5 → ℚ) :
    Fin n → Fin 9 → ℚ := fun c b =>
  if _hb : (b : ℕ) < 1 then scalar c
  else if _hb4 : (b : ℕ) < 4 then 0
  else irrep2 c ⟨(b : ℕ) - 4, by have := b.isLt; omega⟩

/-- _combine_scalar_irrep2: the einsum ab,cb->ca of the change-of-basis
matrix of the stress head with the concatenated irreps vector, followed by
view(-1, 3, 3) (row-major, so entry (c, i, j) is flat component 3i+j). -/
def _combine_scalar_irrep2 {n : ℕ} (change_mat : Fin 9 → Fin 9 → ℚ)
    (scalar : Fin n → ℚ) (irrep2 : Fin n → Fin 5 → ℚ) :
    Fin n → Fin 3 → Fin 3 → ℚ := fun c i j =>
  ∑ b : Fin 9,
    change_mat ⟨3 * (i : ℕ) + (j : ℕ), by have := i.isLt; have := j.isLt; omega⟩ b *
      catIrreps scalar irrep2 c b

/-- The length-9 irreps vector as the spec words it: the concatenation
[scalar, zero 3-vector, irrep2], written by direct case split on the nine
components. -/
def specIrrepsVec {n : ℕ} (scalar : Fin n → ℚ) (irrep2 : Fin n → Fin 5 → ℚ) :
    Fin n → Fin 9 → ℚ := fun c b =>
  match b with
  | ⟨0, _⟩ => scalar c
  | ⟨1, _⟩ => 0
  | ⟨2, _⟩ => 0
  | ⟨3, _⟩ => 0
  | ⟨4, _⟩ => irrep2 c 0
  | ⟨5, _⟩ => irrep2 c 1
  | ⟨6, _⟩ => irrep2 c 2
  | ⟨7, _⟩ => irrep2 c 3
  | ⟨8, _⟩ => irrep2 c 4
  | ⟨k + 9, h⟩ => absurd h (by omega)

/-!
JMP backbone adapter (src/mattertune/backbones/jmp/model.py and util.py).
-/

/-- ASE voigt_6_to_full_3x3_stress, embedded from the ASE library definition:
the voigt vector (xx, yy, zz, yz, xz, xy) becomes
[[s0, s5, s4], [s5, s1, s3], [s4, s3, s2]]. -/
def voigt_6_to_full_3x3_stress (s : Fin 6 → ℚ) : Fin 3 → Fin 3 → ℚ := fun i j =>
  match i, j with
  | ⟨0, _⟩, ⟨0, _⟩ => s 0
  | ⟨0, _⟩, ⟨1, _⟩ => s 5
  | ⟨0, _⟩, ⟨2, _⟩ => s 4
  | ⟨1, _⟩, ⟨0, _⟩ => s 5
  | ⟨1, _⟩, ⟨1, _⟩ => s 1
  | ⟨1, _⟩, ⟨2, _⟩ => s 3
  | ⟨2, _⟩, ⟨0, _⟩ => s 4
  | ⟨2, _⟩, ⟨1, _⟩ => s 3
  | ⟨2, _⟩, ⟨2, _⟩ => s 2
  | ⟨k + 3, h⟩, _ => absurd h (by omega)
  | _, ⟨k + 3, h⟩ => absurd h (by omega)

/-- A label value stored in the PyG data dict by JMPBackboneModule
.atoms_to_data: the flattened 6-component ASE voigt stress, a (1, 3, 3)
tensor, or some other scalar label. -/
inductive JmpVal where
  | v6 (s : Fin 6 → ℚ)
  | mat3 (m : Fin 1 → Fin 3 → Fin 3 → ℚ)
  | scalarV (q : ℚ)

/-- The label stored for one property by the has_labels loop of
JMPBackboneModule.atoms_to_data: for a StressesPropertyConfig the ASE voigt
6-vector (aseStress, the value prop._from_ase_atoms_to_torch returns for the
stress property) is converted with voigt_6_to_full_3x3_stress and reshaped to
(1, 3, 3); every other property stores its fetched value unchanged (aseOther
abstracts _from_ase_atoms_to_torch of finetune/properties.py, which is not
among the sources). -/
def jmpLabelValue (aseStress : Fin 6 → ℚ) (aseOther : PropertyConfig → JmpVal)
    (p : PropertyConfig) : JmpVal :=
  match p.kind with
  | .stresses _ => .mat3 (fun _ i j => voigt_6_to_full_3x3_stress aseStress i j)
  | _ => aseOther p

/-- The has_labels branch of JMPBackboneModule.atoms_to_data: starting from
the base data dict (pos, atomic_numbers, natoms, tags, fixed, cell, pbc),
each configured property stores its label under prop.name. -/
def jmp_store_labels (base : PyDict JmpVal) (aseStress : Fin 6 → ℚ)
    (aseOther : PropertyConfig → JmpVal) (has_labels : Bool)
    (props : List PropertyConfig) : PyDict JmpVal :=
  if has_labels then
    props.foldl (fun d p => dictInsert d p.name (jmpLabelValue aseStress aseOther p)) base
  else base

/-- Python str.lower for the ASCII activation names: lowercase every
character. -/
def pyLower (s : String) : String := ⟨s.data.map Char.toLower⟩

/-- The activation classes resolvable by the JMP adapter. -/
inductive ActivationCls where
  | ReLU
  | SiLU
  | ScaledSiLU
  | Tanh
  | Sigmoid
  | Identity
  deriving DecidableEq

/-- _get_activation_cls from src/mattertune/backbones/jmp/model.py: the
if/elif chain over the lowercased name; the ValueError message interpolates
the lowercased name. -/
def _get_activation_cls (activation : String) : Except PyErr ActivationCls :=
  let a := pyLower activation
  if a = "relu" then .ok .ReLU
  else if a = "silu" ∨ a = "swish" then .ok .SiLU
  else if a = "scaled_silu" ∨ a = "scaled_swish" then .ok .ScaledSiLU
  else if a = "tanh" then .ok .Tanh
  else if a = "sigmoid" then .ok .Sigmoid
  else if a = "identity" then .ok .Identity
  else .error (.valueError ("Activation " ++ a ++ " is not supported"))

/-- get_activation_cls from src/mattertune/backbones/jmp/util.py: the match
statement over the lowercased name; the ValueError message interpolates the
original (unlowered) argument. -/
def get_activation_cls (activation : String) : Except PyErr ActivationCls :=
  match pyLower activation with
  | "relu" => .ok .ReLU
  | "silu" => .ok .SiLU
  | "swish" => .ok .SiLU
  | "scaled_silu" => .ok .ScaledSiLU
  | "scaled_swish" => .ok .ScaledSiLU
  | "tanh" => .ok .Tanh
  | "sigmoid" => .ok .Sigmoid
  | "identity" => .ok .Identity
  | _ => .error (.valueError ("Activation " ++ activation ++ " is not supported"))

/-- Python int(q) applied to a (finite) float value q: truncation toward
zero. Python float division is modelled as exact rational division. -/
def pyInt (q : ℚ) : ℤ := q.num.tdiv q.den

/-- MaxNeighborsConfig of the JMP adapter. -/
structure MaxNeighborsConfig where
  main : ℤ
  aeaint : ℤ
  qint : ℤ
  aint : ℤ
  deriving DecidableEq

/-- MaxNeighborsConfig.from_goc_base_proportions: each non-main field is
int(max_neighbors * f / 30) with Python float division (here exact rational
division) and int() truncation. -/
def MaxNeighborsConfig.from_goc_base_proportions (max_neighbors : ℤ) : MaxNeighborsConfig :=
  { main := max_neighbors
  , aeaint := pyInt ((max_neighbors : ℚ) * 20 / 30)
  , qint := pyInt ((max_neighbors : ℚ) * 8 / 30)
  , aint := pyInt ((max_neighbors : ℚ) * 1000 / 30) }

/-!
Concrete instances used by the evaluation and witness theorems.
-/

/-- Two trainable parameters with ids 0 and 1 (one element each, nonzero, so
the __init__ truthiness check happens to pass on them). -/
def exParams : List Param := [⟨0, [5], true⟩, ⟨1, [7], true⟩]

/-- A squared-error style loss function on the tensor model. -/
def exLoss : LossKind → Tensor → Tensor → Tensor :=
  fun _ a b => ⟨(a.val - b.val) * (a.val - b.val), a.deps ∪ b.deps⟩

/-- A module whose gpu_batch_transform always raises, with
ignore_gpu_batch_transform_error set. -/
def exSkipModule : FinetuneModuleBase :=
  { ignore_gpu_batch_transform_error := true
  , params := exParams
  , properties := [⟨"energy", .energy, 0, 1⟩]
  , gpu_batch_transform := fun _ => .error (.valueError "graph generation failed")
  , model_forward := fun _ => .ok (wrapPrediction [("energy", ⟨2, {0}⟩)])
  , batch_to_labels := fun _ => [("energy", ⟨3, ∅⟩)]
  , train_metrics := fun _ _ => []
  , val_metrics := fun _ _ => []
  , test_metrics := fun _ _ => [] }

/-- The same module with ignore_gpu_batch_transform_error disabled. -/
def exNoSkipModule : FinetuneModuleBase :=
  { exSkipModule with ignore_gpu_batch_transform_error := false }

/-- A module whose transform and forward both succeed, as a backbone would
behave on a good batch. -/
def exOkModule : FinetuneModuleBase :=
  { exSkipModule with gpu_batch_transform := fun b => .ok b }

/-- A module whose model_forward raises. -/
def exForwardErrModule : FinetuneModuleBase :=
  { exOkModule with model_forward := fun _ => .error (.runtimeError "CUDA out of memory") }

/-- A single trainable parameter with two elements. -/
def exBigParam : List Param := [⟨0, [1, 2], true⟩]

/-- A single frozen parameter. -/
def exNoGradParams : List Param := [⟨0, [5], false⟩]

/-- A single trainable parameter whose only element is zero. -/
def exZeroParam : List Param := [⟨0, [0], true⟩]

/-- A property list for the eqV2 adapter: an energy and a non-conservative
forces property. -/
def exProps4 : List PropertyConfig :=
  [⟨"energy", .energy, 0, 1⟩, ⟨"my_forces", .forces false, 1, 1⟩]

/-- The output heads create_model builds for exProps4. -/
def exHeads4 : PyDict EqV2Head := [("energy", .energyHead "sum"), ("my_forces", .forceHead)]

/-- A head-output oracle providing the keys the eqV2 model_forward reads. -/
def exHeadOut4 : String → PyDict Tensor :=
  fun _ => [("energy", ⟨1, ∅⟩), ("forces", ⟨2, ∅⟩)]

/-- A concrete stand-in for the stress recombination on scalar tensors. -/
def exCombine : Tensor → Tensor → Tensor := Tensor.addT

/-- A batch carrying the attributes batch_to_labels reads for exProps4. -/
def exBatch4 : PyDict Tensor := [("energy", ⟨1, ∅⟩), ("forces", ⟨2, ∅⟩)]

/-- An example ASE voigt stress vector. -/
def exStress6 : Fin 6 → ℚ := fun k => (k : ℚ)

/-- A non-conservative stresses property. -/
def exStressProp : PropertyConfig := ⟨"stress", .stresses false, 2, 1⟩

/-- A label fetcher for non-stress properties. -/
def exAseOther : PropertyConfig → JmpVal := fun _ => .scalarV 0

/-!
Theorems.
-/

theorem dictLookup_dictInsert_self {α : Type} (d : PyDict α) (k : String) (v : α) :
    dictLookup (dictInsert d k v) k = some v := by
  induction d with
  | nil => simp [dictInsert, dictLookup]
  | cons kv rest ih =>
    by_cases h : kv.1 = k
    · simp [dictInsert, h, dictLookup]
    · simp [dictInsert, h, dictLookup, ih]

theorem dictLookup_dictInsert_ne {α : Type} (d : PyDict α) (k k2 : String) (v : α)
    (h : k2 ≠ k) : dictLookup (dictInsert d k v) k2 = dictLookup d k2 := by
  induction d with
  | nil => simp [dictInsert, dictLookup, Ne.symm h]
  | cons kv rest ih =>
    by_cases hk : kv.1 = k
    · simp [dictInsert, hk, dictLookup, Ne.symm h]
    · simp [dictInsert, hk, dictLookup, ih]

theorem dictKeys_dictInsert {α : Type} (d : PyDict α) (k : String) (v : α) :
    (dictKeys (dictInsert d k v)).toFinset = insert k (dictKeys d).toFinset := by
  induction d with
  | nil => simp [dictInsert, dictKeys]
  | cons kv rest ih =>
    by_cases h : kv.1 = k
    · subst h
      simp [dictInsert, dictKeys]
    · simp only [dictKeys, List.map_cons, List.toFinset_cons] at ih ⊢
      rw [dictInsert, if_neg h]
      simp only [List.map_cons, List.toFinset_cons]
      rw [ih, Finset.Insert.comm]

theorem dictLookup_isSome_iff {α : Type} (d : PyDict α) (k : String) :
    (dictLookup d k).isSome ↔ k ∈ dictKeys d := by
  induction d with
  | nil => simp [dictLookup, dictKeys]
  | cons kv rest ih =>
    by_cases h : kv.1 = k
    · simp [dictLookup, h, dictKeys]
    · simp [dictLookup, h, dictKeys, ih, Ne.symm h]

/-- C1: when ignore_gpu_batch_transform_error is set and gpu_batch_transform
raises, _common_step logs the warning and produces the substitute loss
sum(p.sum() * 0.0 for p in self.parameters()), whose value is zero and whose
autograd graph reaches both parameters (ids 0 and 1) — but training_step then
fails to unpack the bare zero-dimensional tensor and raises TypeError instead
of returning the substitute loss, contradicting the claim that the training
step does not propagate an error. -/
theorem c1_skip_batch_training_step_eval :
    exSkipModule._common_step exLoss 0 "train" (some exSkipModule.train_metrics) true =
      ([.warn "Error in forward pass. Skipping batch."],
        .ok (.scalar0d (zeroLoss exSkipModule.params)))
    ∧ (zeroLoss exSkipModule.params).val = 0
    ∧ (zeroLoss exSkipModule.params).deps = {0, 1}
    ∧ exSkipModule.training_step exLoss 0 =
        ([.warn "Error in forward pass. Skipping batch."],
          .error (.typeError "iteration over a 0-d tensor")) := by
  refine ⟨?_, ?_, ?_, ?_⟩
  · simp [FinetuneModuleBase._common_step, FinetuneModuleBase.forward, exSkipModule]
  · simp [exSkipModule, exParams, zeroLoss, Tensor.addT, Tensor.mulScalar, Param.sumT, pyLit]
  · simp [exSkipModule, exParams, zeroLoss, Tensor.addT, Tensor.mulScalar, Param.sumT, pyLit]
    decide
  · simp [FinetuneModuleBase.training_step, FinetuneModuleBase._common_step,
      FinetuneModuleBase.forward, exSkipModule]

/-- C8: the __init__ check any(p for p in self.parameters() if p.requires_grad)
tests the truthiness of the parameter tensors themselves. With no trainable
parameter it raises the documented ValueError (first conjunct of the claim,
which holds), but with a trainable two-element parameter it raises
RuntimeError instead of completing (second conjunct of the claim, which
fails), and a trainable one-element zero parameter is treated as absent.
Construction only completes when some trainable parameter happens to be a
truthy one-element tensor. -/
theorem c8_init_grad_check_eval :
    initGradCheck exNoGradParams =
      .error (.valueError "No parameters require gradients. Please ensure that some parts of the model are trainable.")
    ∧ initGradCheck exBigParam =
      .error (.runtimeError "Boolean value of Tensor with more than one element is ambiguous")
    ∧ exBigParam.any (fun p => p.requires_grad) = true
    ∧ initGradCheck exZeroParam =
      .error (.valueError "No parameters require gradients. Please ensure that some parts of the model are trainable.")
    ∧ exZeroParam.any (fun p => p.requires_grad) = true
    ∧ initGradCheck exParams = .ok () := by
  refine ⟨?_, ?_, ?_, ?_, ?_, ?_⟩ <;>
    simp [initGradCheck, anyTruthyGradParam, tensorTruthy,
      exNoGradParams, exBigParam, exZeroParam, exParams]

/-- C2: the batch-skip recovery is scoped exactly to the GPU batch transform.
A substitute zero loss is produced if and only if
ignore_gpu_batch_transform_error is set and gpu_batch_transform raised (and
the substitute is exactly the zero loss over all parameters, after the
logged warning); with the flag unset a transform error propagates out of the
step unchanged, and an error raised by model_forward propagates out of the
step unchanged regardless of the flag. -/
theorem c2_skip_scope (m : FinetuneModuleBase)
    (compute_loss : LossKind → Tensor → Tensor → Tensor) (b : TBatch)
    (nm : String) (mt : Option MetricsFn) (lg : Bool) :
    (∀ logs t, m._common_step compute_loss b nm mt lg = (logs, .ok (.scalar0d t)) →
      t = zeroLoss m.params ∧ m.ignore_gpu_batch_transform_error = true ∧
        ∃ e, m.gpu_batch_transform b = .error e)
    ∧ (m.ignore_gpu_batch_transform_error = true →
        (∃ e, m.gpu_batch_transform b = .error e) →
        m._common_step compute_loss b nm mt lg =
          ([.warn "Error in forward pass. Skipping batch."],
            .ok (.scalar0d (zeroLoss m.params))))
    ∧ (∀ e, m.ignore_gpu_batch_transform_error = false →
        m.gpu_batch_transform b = .error e →
        m._common_step compute_loss b nm mt lg = ([], .error e))
    ∧ (∀ b2 e, m.gpu_batch_transform b = .ok b2 →
        m.model_forward b2 = .error e →
        (m._common_step compute_loss b nm mt lg).2 = .error e) := by
  refine ⟨?_, ?_, ?_, ?_⟩
  · intro logs t hstep
    by_cases hflag : m.ignore_gpu_batch_transform_error
    · rcases htr : m.gpu_batch_transform b with e | b2
      · simp [FinetuneModuleBase._common_step, FinetuneModuleBase.forward,
          hflag, htr] at hstep
        exact ⟨hstep.2.symm, hflag, e, rfl⟩
      · rcases hmf : m.model_forward b2 with e | preds
        · simp [FinetuneModuleBase._common_step, FinetuneModuleBase.forward,
            hflag, htr, hmf] at hstep
        · simp only [FinetuneModuleBase._common_step, FinetuneModuleBase.forward,
            hflag, if_true, htr, hmf] at hstep
          rcases hcl : _compute_loss (fun k a c => compute_loss k a.asTensor c.asTensor)
              m.properties preds ((m.batch_to_labels b).map fun kv => (kv.1, PyVal.tensor kv.2))
              lg (nm ++ "/") with e | lp
          · simp [hcl] at hstep
          · simp [hcl] at hstep
    · rcases htr : m.gpu_batch_transform b with e | b2
      · simp [FinetuneModuleBase._common_step, FinetuneModuleBase.forward,
          hflag, htr] at hstep
      · rcases hmf : m.model_forward b2 with e | preds
        · simp [FinetuneModuleBase._common_step, FinetuneModuleBase.forward,
            hflag, htr, hmf] at hstep
        · simp only [FinetuneModuleBase._common_step, FinetuneModuleBase.forward,
            hflag, if_false, Bool.false_eq_true, htr, hmf] at hstep
          rcases hcl : _compute_loss (fun k a c => compute_loss k a.asTensor c.asTensor)
              m.properties preds ((m.batch_to_labels b).map fun kv => (kv.1, PyVal.tensor kv.2))
              lg (nm ++ "/") with e | lp
          · simp [hcl] at hstep
          · simp [hcl] at hstep
  · rintro hflag ⟨e, htr⟩
    simp [FinetuneModuleBase._common_step, FinetuneModuleBase.forward, hflag, htr]
  · intro e hflag htr
    simp [FinetuneModuleBase._common_step, FinetuneModuleBase.forward, hflag, htr]
  · intro b2 e htr hmf
    by_cases hflag : m.ignore_gpu_batch_transform_error <;>
      simp [FinetuneModuleBase._common_step, FinetuneModuleBase.forward, hflag, htr, hmf]

/-- Witness for c2_skip_scope: with the flag unset the transform error
propagates out of the step, and a model_forward error propagates with the
flag set. -/
theorem c2_skip_scope_witness :
    exNoSkipModule._common_step exLoss 0 "train" (some exNoSkipModule.train_metrics) true =
      ([], .error (.valueError "graph generation failed"))
    ∧ (exForwardErrModule._common_step exLoss 0 "train"
        (some exForwardErrModule.train_metrics) true).2 =
      .error (.runtimeError "CUDA out of memory") := by
  constructor
  · exact (c2_skip_scope exNoSkipModule exLoss 0 "train"
      (some exNoSkipModule.train_metrics) true).2.2.1
      (.valueError "graph generation failed") rfl rfl
  · exact (c2_skip_scope exForwardErrModule exLoss 0 "train"
      (some exForwardErrModule.train_metrics) true).2.2.2 0
      (.runtimeError "CUDA out of memory") rfl rfl

theorem foldl_addT_val (ls : List Tensor) (a : Tensor) :
    (ls.foldl Tensor.addT a).val = a.val + (ls.map Tensor.val).sum := by
  induction ls generalizing a with
  | nil => simp
  | cons t ts ih =>
    simp [ih, Tensor.addT]
    ring

theorem computeLossGo_ok {α : Type} (compute_loss : LossKind → α → α → Tensor)
    (preds labels : PyDict α) (lg : Bool) (logPre : String) (d : α)
    (props : List PropertyConfig)
    (h : ∀ p ∈ props, (dictLookup preds p.name).isSome ∧ (dictLookup labels p.name).isSome) :
    ∃ logs, computeLossGo compute_loss preds labels lg logPre props =
      .ok (logs, props.map fun p =>
        (compute_loss p.loss ((dictLookup preds p.name).getD d)
          ((dictLookup labels p.name).getD d)).mulScalar p.loss_coefficient) := by
  induction props with
  | nil => exact ⟨[], rfl⟩
  | cons p ps ih =>
    obtain ⟨hp, hl⟩ := h p (List.mem_cons_self _ _)
    obtain ⟨pr, hpr⟩ := Option.isSome_iff_exists.mp hp
    obtain ⟨lb, hlb⟩ := Option.isSome_iff_exists.mp hl
    obtain ⟨logs, hgo⟩ := ih (fun q hq => h q (List.mem_cons_of_mem _ hq))
    refine ⟨(if lg then [LogEntry.scalar (logPre ++ p.name ++ "_loss")
      ((compute_loss p.loss pr lb).mulScalar p.loss_coefficient).val] else []) ++ logs, ?_⟩
    simp [computeLossGo, hpr, hlb, hgo]

theorem compute_loss_ok {α : Type} (compute_loss : LossKind → α → α → Tensor)
    (props : List PropertyConfig) (preds labels : PyDict α)
    (lg : Bool) (logPre : String) (d : α)
    (h : ∀ p ∈ props, (dictLookup preds p.name).isSome ∧ (dictLookup labels p.name).isSome) :
    ∃ logs L, _compute_loss compute_loss props preds labels lg logPre = .ok (logs, L) ∧
      L.val = (props.map fun p =>
        (compute_loss p.loss ((dictLookup preds p.name).getD d)
          ((dictLookup labels p.name).getD d)).val * p.loss_coefficient).sum := by
  obtain ⟨logs, hgo⟩ := computeLossGo_ok compute_loss preds labels lg logPre d props h
  simp only [_compute_loss, hgo]
  refine ⟨_, _, rfl, ?_⟩
  rw [foldl_addT_val]
  simp [pyLit, List.map_map, Tensor.mulScalar, Function.comp_def]

/-- C3: _compute_loss, applied to a predictions dict and a labels dict that
contain an entry for each configured property, returns the weighted sum over
the properties, in order, of compute_loss(prop.loss, predictions[prop.name],
labels[prop.name]) * prop.loss_coefficient. However, the training,
validation and test steps do not use this loss: _common_step passes the
ModelPrediction wrapper dict returned by self(batch) (whose only key is
predicted_properties) to _compute_loss, so all three steps raise
KeyError(first property name) instead. -/
theorem c3_weighted_sum_loss
    (compute_loss : LossKind → Tensor → Tensor → Tensor)
    (props : List PropertyConfig) (preds labels : PyDict Tensor)
    (lg : Bool) (logPre : String)
    (h : ∀ p ∈ props, (dictLookup preds p.name).isSome ∧ (dictLookup labels p.name).isSome) :
    (∃ logs L, _compute_loss compute_loss props preds labels lg logPre = .ok (logs, L) ∧
      L.val = (props.map fun p =>
        (compute_loss p.loss ((dictLookup preds p.name).getD (pyLit 0))
          ((dictLookup labels p.name).getD (pyLit 0))).val * p.loss_coefficient).sum)
    ∧ (∀ (m : FinetuneModuleBase) (b b2 : TBatch) (inner : PyDict Tensor)
        (p : PropertyConfig) (rest : List PropertyConfig),
        m.gpu_batch_transform b = .ok b2 →
        m.model_forward b2 = .ok (wrapPrediction inner) →
        m.properties = p :: rest →
        p.name ≠ "predicted_properties" →
        (m.training_step compute_loss b).2 = .error (.keyError p.name) ∧
        (m.validation_step compute_loss b).2 = .error (.keyError p.name) ∧
        (m.test_step compute_loss b).2 = .error (.keyError p.name)) := by
  constructor
  · exact compute_loss_ok compute_loss props preds labels lg logPre (pyLit 0) h
  · intro m b b2 inner p rest htr hmf hprops hname
    have hlk : dictLookup (wrapPrediction inner) p.name = none := by
      have hne : ¬ ("predicted_properties" = p.name) := fun h2 => hname h2.symm
      simp [wrapPrediction, dictLookup, hne]
    have hcl : ∀ (labelsV : PyDict PyVal) lg2 pre2,
        _compute_loss (fun k a c => compute_loss k a.asTensor c.asTensor)
          m.properties (wrapPrediction inner) labelsV lg2 pre2 = .error (.keyError p.name) := by
      intro labelsV lg2 pre2
      rw [hprops]
      simp [_compute_loss, computeLossGo, hlk]
    have hstep : ∀ nm mt lg2,
        (m._common_step compute_loss b nm mt lg2).2 = .error (.keyError p.name) := by
      intro nm mt lg2
      by_cases hflag : m.ignore_gpu_batch_transform_error <;>
        simp [FinetuneModuleBase._common_step, FinetuneModuleBase.forward,
          hflag, htr, hmf, hcl]
    refine ⟨?_, ?_, ?_⟩
    · rcases hq : m._common_step compute_loss b "train" (some m.train_metrics) true with ⟨logs, r⟩
      have hr := hstep "train" (some m.train_metrics) true
      rw [hq] at hr
      simp only at hr
      subst hr
      simp [FinetuneModuleBase.training_step, hq]
    · rcases hq : m._common_step compute_loss b "val" (some m.val_metrics) true with ⟨logs, r⟩
      have hr := hstep "val" (some m.val_metrics) true
      rw [hq] at hr
      simp only at hr
      subst hr
      simp [FinetuneModuleBase.validation_step, hq]
    · rcases hq : m._common_step compute_loss b "test" (some m.test_metrics) true with ⟨logs, r⟩
      have hr := hstep "test" (some m.test_metrics) true
      rw [hq] at hr
      simp only at hr
      subst hr
      simp [FinetuneModuleBase.test_step, hq]

/-- Witness for c3_weighted_sum_loss: on a module whose transform and forward
succeed, training_step fails with KeyError on the first property name. -/
theorem c3_weighted_sum_loss_witness :
    (exOkModule.training_step exLoss 0).2 = .error (.keyError "energy") := by
  have h := c3_weighted_sum_loss exLoss exOkModule.properties
    [("energy", ⟨2, {0}⟩)] [("energy", ⟨3, ∅⟩)] true "train/" (by decide)
  exact (h.2 exOkModule 0 0 [("energy", ⟨2, {0}⟩)] ⟨"energy", .energy, 0, 1⟩ []
    rfl rfl rfl (by decide)).1

theorem eqv2_create_heads_go_keys (props : List PropertyConfig) (acc heads : PyDict EqV2Head)
    (hh : eqv2_create_heads_go acc props = .ok heads) :
    (dictKeys heads).toFinset = (dictKeys acc).toFinset ∪ (props.map PropertyConfig.name).toFinset := by
  induction props generalizing acc with
  | nil =>
    simp only [eqv2_create_heads_go, Except.ok.injEq] at hh
    subst hh
    simp
  | cons p ps ih =>
    rcases hc : eqv2_create_output_head p with e | hd
    · simp [eqv2_create_heads_go, hc] at hh
    · simp only [eqv2_create_heads_go, hc] at hh
      have hk := ih (dictInsert acc p.name hd) hh
      rw [hk, dictKeys_dictInsert]
      ext x
      simp only [Finset.mem_insert, Finset.mem_union, List.mem_toFinset, List.map_cons, List.mem_cons]
      tauto

theorem eqv2_model_forward_go_ok (props : List PropertyConfig)
    (headOut : String → PyDict Tensor) (combineT : Tensor → Tensor → Tensor)
    (hout : ∀ p ∈ props, (eqv2HeadPred p (headOut p.name) combineT).isOk = true)
    (hlist : List (String × EqV2Head)) (acc : PyDict Tensor)
    (hnames : ∀ kv ∈ hlist, ∃ p ∈ props, p.name = kv.1) :
    ∃ out, eqv2_model_forward_go props headOut combineT acc hlist = .ok out ∧
      (dictKeys out).toFinset = (dictKeys acc).toFinset ∪ (hlist.map Prod.fst).toFinset := by
  induction hlist generalizing acc with
  | nil => exact ⟨acc, rfl, by simp⟩
  | cons kv rest ih =>
    obtain ⟨nm, hd⟩ := kv
    obtain ⟨p0, hp0mem, hp0name⟩ := hnames (nm, hd) (List.mem_cons_self _ _)
    have hfs : (props.find? (fun p => p.name == nm)).isSome := by
      rw [List.find?_isSome]
      exact ⟨p0, hp0mem, by simp [hp0name]⟩
    obtain ⟨p2, hp2⟩ := Option.isSome_iff_exists.mp hfs
    have hp2mem : p2 ∈ props := List.mem_of_find?_eq_some hp2
    have hp2name : p2.name = nm := by simpa using List.find?_some hp2
    have hok := hout p2 hp2mem
    rw [hp2name] at hok
    rcases ht : eqv2HeadPred p2 (headOut nm) combineT with e | t
    · rw [ht] at hok
      simp [Except.isOk, Except.toBool] at hok
    · obtain ⟨out, hgo, hkeys⟩ := ih (dictInsert acc nm t)
        (fun kv2 h2 => hnames kv2 (List.mem_cons_of_mem _ h2))
      refine ⟨out, ?_, ?_⟩
      · simp [eqv2_model_forward_go, hp2, ht, hgo]
      · rw [hkeys, dictKeys_dictInsert]
        ext x
        simp only [Finset.mem_insert, Finset.mem_union, List.mem_toFinset, List.map_cons, List.mem_cons]
        tauto

theorem eqv2_batch_to_labels_go_ok (batch : PyDict Tensor) (props : List PropertyConfig)
    (hb : ∀ p ∈ props, (dictLookup batch (eqv2BatchKey p)).isSome) (acc : PyDict Tensor) :
    ∃ out, eqv2_batch_to_labels_go batch acc props = .ok out ∧
      (dictKeys out).toFinset = (dictKeys acc).toFinset ∪ (props.map PropertyConfig.name).toFinset := by
  induction props generalizing acc with
  | nil => exact ⟨acc, rfl, by simp⟩
  | cons p ps ih =>
    obtain ⟨v, hv⟩ := Option.isSome_iff_exists.mp (hb p (List.mem_cons_self _ _))
    obtain ⟨out, hgo, hkeys⟩ := ih (fun q hq => hb q (List.mem_cons_of_mem _ hq))
      (dictInsert acc p.name v)
    refine ⟨out, ?_, ?_⟩
    · simp [eqv2_batch_to_labels_go, hv, hgo]
    · rw [hkeys, dictKeys_dictInsert]
      ext x
      simp only [Finset.mem_insert, Finset.mem_union, List.mem_toFinset, List.map_cons, List.mem_cons]
      tauto

/-- C4: the eqV2 adapter keeps predictions and labels keyed exactly by the
configured property names. The output_heads dict built by create_model has
exactly the property names as keys; model_forward succeeds (its per-head
assert finds a matching property for every head name) and emits
predicted_properties with exactly those keys; batch_to_labels returns one
label per configured property under prop.name; hence every lookup
predictions[prop.name] and labels[prop.name] done by _compute_loss on these
dicts succeeds. -/
theorem c4_eqv2_naming_invariant (props : List PropertyConfig)
    (heads : PyDict EqV2Head) (headOut : String → PyDict Tensor)
    (combineT : Tensor → Tensor → Tensor) (batch : PyDict Tensor)
    (hh : eqv2_create_heads props = .ok heads)
    (hout : ∀ p ∈ props, (eqv2HeadPred p (headOut p.name) combineT).isOk = true)
    (hb : ∀ p ∈ props, (dictLookup batch (eqv2BatchKey p)).isSome) :
    ((dictKeys heads).toFinset = (props.map PropertyConfig.name).toFinset)
    ∧ (∃ preds, eqv2_model_forward props heads headOut combineT = .ok preds ∧
        (dictKeys preds).toFinset = (props.map PropertyConfig.name).toFinset ∧
        ∀ p ∈ props, (dictLookup preds p.name).isSome)
    ∧ (∃ labels, eqv2_batch_to_labels props batch = .ok labels ∧
        (dictKeys labels).toFinset = (props.map PropertyConfig.name).toFinset ∧
        ∀ p ∈ props, (dictLookup labels p.name).isSome)
    ∧ (∀ (compute_loss : LossKind → Tensor → Tensor → Tensor) (lg : Bool) (logPre : String)
        (preds labels : PyDict Tensor),
        eqv2_model_forward props heads headOut combineT = .ok preds →
        eqv2_batch_to_labels props batch = .ok labels →
        ∃ logs L, _compute_loss compute_loss props preds labels lg logPre = .ok (logs, L)) := by
  have hkeys : (dictKeys heads).toFinset = (props.map PropertyConfig.name).toFinset := by
    have hk := eqv2_create_heads_go_keys props [] heads hh
    simpa [dictKeys] using hk
  have hnames : ∀ kv ∈ heads, ∃ p ∈ props, p.name = kv.1 := by
    intro kv hkv
    have hmem : kv.1 ∈ (dictKeys heads).toFinset := by
      simp only [dictKeys, List.mem_toFinset, List.mem_map]
      exact ⟨kv, hkv, rfl⟩
    rw [hkeys] at hmem
    simp only [List.mem_toFinset, List.mem_map] at hmem
    obtain ⟨p, hp, hpn⟩ := hmem
    exact ⟨p, hp, hpn⟩
  obtain ⟨preds, hpreds, hpkeys⟩ :=
    eqv2_model_forward_go_ok props headOut combineT hout heads [] hnames
  have hpkeys2 : (dictKeys preds).toFinset = (props.map PropertyConfig.name).toFinset := by
    rw [hpkeys, ← hkeys]
    simp [dictKeys]
  have hplook : ∀ p ∈ props, (dictLookup preds p.name).isSome := by
    intro p hp
    rw [dictLookup_isSome_iff]
    have : p.name ∈ (dictKeys preds).toFinset := by
      rw [hpkeys2]
      simp only [List.mem_toFinset, List.mem_map]
      exact ⟨p, hp, rfl⟩
    simpa [List.mem_toFinset] using this
  obtain ⟨labels, hlabels, hlkeys⟩ := eqv2_batch_to_labels_go_ok batch props hb []
  have hlkeys2 : (dictKeys labels).toFinset = (props.map PropertyConfig.name).toFinset := by
    rw [hlkeys]
    simp [dictKeys]
  have hllook : ∀ p ∈ props, (dictLookup labels p.name).isSome := by
    intro p hp
    rw [dictLookup_isSome_iff]
    have : p.name ∈ (dictKeys labels).toFinset := by
      rw [hlkeys2]
      simp only [List.mem_toFinset, List.mem_map]
      exact ⟨p, hp, rfl⟩
    simpa [List.mem_toFinset] using this
  refine ⟨hkeys, ⟨preds, hpreds, hpkeys2, hplook⟩, ⟨labels, hlabels, hlkeys2, hllook⟩, ?_⟩
  intro compute_loss lg logPre preds2 labels2 h1 h2
  rw [eqv2_model_forward, hpreds] at h1
  rw [eqv2_batch_to_labels, hlabels] at h2
  obtain rfl : preds = preds2 := by simpa using h1
  obtain rfl : labels = labels2 := by simpa using h2
  obtain ⟨logs, L, hL, _⟩ := compute_loss_ok compute_loss props preds labels lg logPre
    (pyLit 0) (fun p hp => ⟨hplook p hp, hllook p hp⟩)
  exact ⟨logs, L, hL⟩

/-- Witness for c4_eqv2_naming_invariant: for an energy property and a
non-conservative forces property, the created heads are keyed by the two
property names. -/
theorem c4_eqv2_naming_invariant_witness :
    (dictKeys exHeads4).toFinset = (exProps4.map PropertyConfig.name).toFinset := by
  exact (c4_eqv2_naming_invariant exProps4 exHeads4 exHeadOut4 exCombine exBatch4
    rfl (by decide) (by decide)).1

theorem catIrreps_eq_specIrrepsVec {n : ℕ} (scalar : Fin n → ℚ)
    (irrep2 : Fin n → Fin 5 → ℚ) (c : Fin n) (b : Fin 9) :
    catIrreps scalar irrep2 c b = specIrrepsVec scalar irrep2 c b := by
  fin_cases b <;> rfl

/-- C5: _combine_scalar_irrep2 applies the change-of-basis matrix to the
concatenated irreps vector [scalar, zero 3-vector, irrep2] (whose rank-1
vector slots are identically zero) and reshapes the result row-major to an
(n, 3, 3) stress tensor; and the result is (jointly) linear in the scalar
and irrep2 inputs. -/
theorem c5_combine_scalar_irrep2 {n : ℕ} (change_mat : Fin 9 → Fin 9 → ℚ)
    (scalar : Fin n → ℚ) (irrep2 : Fin n → Fin 5 → ℚ) :
    (∀ (c : Fin n) (i j : Fin 3),
      _combine_scalar_irrep2 change_mat scalar irrep2 c i j =
        ∑ b : Fin 9,
          change_mat ⟨3 * (i : ℕ) + (j : ℕ), by have := i.isLt; have := j.isLt; omega⟩ b *
            specIrrepsVec scalar irrep2 c b)
    ∧ (∀ (a : ℚ) (scalar2 : Fin n → ℚ) (irrep2b : Fin n → Fin 5 → ℚ)
        (c : Fin n) (i j : Fin 3),
        _combine_scalar_irrep2 change_mat
            (fun x => a * scalar x + scalar2 x) (fun x y => a * irrep2 x y + irrep2b x y) c i j =
          a * _combine_scalar_irrep2 change_mat scalar irrep2 c i j +
            _combine_scalar_irrep2 change_mat scalar2 irrep2b c i j) := by
  constructor
  · intro c i j
    unfold _combine_scalar_irrep2
    exact Finset.sum_congr rfl fun b _ => by
      rw [catIrreps_eq_specIrrepsVec]
  · intro a scalar2 irrep2b c i j
    unfold _combine_scalar_irrep2
    rw [Finset.mul_sum, ← Finset.sum_add_distrib]
    refine Finset.sum_congr rfl fun b _ => ?_
    have hlin : catIrreps (fun x => a * scalar x + scalar2 x)
        (fun x y => a * irrep2 x y + irrep2b x y) c b =
        a * catIrreps scalar irrep2 c b + catIrreps scalar2 irrep2b c b := by
      fin_cases b <;> simp [catIrreps]
    rw [hlin]
    ring

theorem jmp_fold_lookup_of_not_mem (f : PropertyConfig → JmpVal) (props : List PropertyConfig)
    (acc : PyDict JmpVal) (k : String) (hk : ∀ q ∈ props, q.name ≠ k) :
    dictLookup (props.foldl (fun d q => dictInsert d q.name (f q)) acc) k = dictLookup acc k := by
  induction props generalizing acc with
  | nil => rfl
  | cons q qs ih =>
    simp only [List.foldl_cons]
    rw [ih _ (fun r hr => hk r (List.mem_cons_of_mem _ hr))]
    exact dictLookup_dictInsert_ne _ _ _ _
      (fun h2 => hk q (List.mem_cons_self _ _) h2.symm)

theorem jmp_fold_lookup (f : PropertyConfig → JmpVal) (props : List PropertyConfig)
    (acc : PyDict JmpVal) (p : PropertyConfig)
    (hmem : p ∈ props) (hnodup : (props.map PropertyConfig.name).Nodup) :
    dictLookup (props.foldl (fun d q => dictInsert d q.name (f q)) acc) p.name = some (f p) := by
  induction props generalizing acc with
  | nil => cases hmem
  | cons q qs ih =>
    simp only [List.map_cons, List.nodup_cons] at hnodup
    rcases List.mem_cons.mp hmem with rfl | hmem2
    · simp only [List.foldl_cons]
      rw [jmp_fold_lookup_of_not_mem f qs (dictInsert acc p.name (f p)) p.name
        (fun r hr h2 => hnodup.1 (h2 ▸ List.mem_map_of_mem PropertyConfig.name hr))]
      exact dictLookup_dictInsert_self _ _ _
    · simp only [List.foldl_cons]
      exact ih _ hmem2 hnodup.2

/-- C6: in the JMP adapter, with has_labels set and a StressesPropertyConfig
among the configured properties, the stored stress label is the voigt
6-vector converted by voigt_6_to_full_3x3_stress and reshaped to (1, 3, 3);
consequently the stored stress label is a symmetric 3x3 matrix. -/
theorem c6_jmp_voigt_stress_label (base : PyDict JmpVal) (aseStress : Fin 6 → ℚ)
    (aseOther : PropertyConfig → JmpVal) (props : List PropertyConfig)
    (p : PropertyConfig) (conservative : Bool)
    (hmem : p ∈ props) (hkind : p.kind = .stresses conservative)
    (hnodup : (props.map PropertyConfig.name).Nodup) :
    dictLookup (jmp_store_labels base aseStress aseOther true props) p.name =
      some (.mat3 fun _ i j => voigt_6_to_full_3x3_stress aseStress i j)
    ∧ (∀ i j, voigt_6_to_full_3x3_stress aseStress i j =
        voigt_6_to_full_3x3_stress aseStress j i) := by
  constructor
  · have hl := jmp_fold_lookup (jmpLabelValue aseStress aseOther) props base p hmem hnodup
    simp only [jmp_store_labels, if_pos]
    rw [hl]
    simp [jmpLabelValue, hkind]
  · intro i j
    fin_cases i <;> fin_cases j <;> rfl

/-- Witness for c6_jmp_voigt_stress_label: the stored label for the example
stress property is the converted, symmetric matrix. -/
theorem c6_jmp_voigt_stress_label_witness :
    dictLookup (jmp_store_labels [] exStress6 exAseOther true [exStressProp]) "stress" =
      some (.mat3 fun _ i j => voigt_6_to_full_3x3_stress exStress6 i j) :=
  (c6_jmp_voigt_stress_label [] exStress6 exAseOther [exStressProp] exStressProp false
    (List.mem_singleton.mpr rfl) rfl (by simp)).1

/-- C7: eqV2 output-head construction dispatches on the property-config tag:
energy yields EquiformerV2EnergyHead with reduce sum; non-conservative
forces yields EquiformerV2ForceHead; non-conservative stresses yields
Rank2SymmetricTensorHead (output_name stress, use_source_target_embedding
and decompose set, extensive unset); a graph property with reduction sum or
mean yields EquiformerV2EnergyHead with that reduction; conservative forces
or stresses and any other graph reduction raise AssertionError, and any
other property class raises ValueError. -/
theorem c7_eqv2_head_dispatch (nm : String) (lk : LossKind) (coeff : ℚ) :
    (eqv2_create_output_head ⟨nm, .energy, lk, coeff⟩ = .ok (.energyHead "sum"))
    ∧ (eqv2_create_output_head ⟨nm, .forces false, lk, coeff⟩ = .ok .forceHead)
    ∧ (eqv2_create_output_head ⟨nm, .stresses false, lk, coeff⟩ =
        .ok (.rank2Head "stress" true true false))
    ∧ (∀ reduction, reduction = "sum" ∨ reduction = "mean" →
        eqv2_create_output_head ⟨nm, .graph reduction, lk, coeff⟩ =
          .ok (.energyHead reduction))
    ∧ (∃ msg, eqv2_create_output_head ⟨nm, .forces true, lk, coeff⟩ =
        .error (.assertError msg))
    ∧ (∃ msg, eqv2_create_output_head ⟨nm, .stresses true, lk, coeff⟩ =
        .error (.assertError msg))
    ∧ (∀ reduction, reduction ≠ "sum" → reduction ≠ "mean" →
        ∃ msg, eqv2_create_output_head ⟨nm, .graph reduction, lk, coeff⟩ =
          .error (.assertError msg))
    ∧ (∃ msg, eqv2_create_output_head ⟨nm, .otherProp, lk, coeff⟩ =
        .error (.valueError msg)) := by
  refine ⟨rfl, rfl, rfl, ?_, ⟨_, rfl⟩, ⟨_, rfl⟩, ?_, ⟨_, rfl⟩⟩
  · rintro reduction (rfl | rfl) <;> rfl
  · intro reduction h1 h2
    refine ⟨"Unsupported reduction: " ++ reduction ++ " for eqV2. Please use sum or mean.", ?_⟩
    simp [eqv2_create_output_head, h1, h2]

/-- Witness for c7_eqv2_head_dispatch: a graph property with mean reduction
yields an energy head with mean reduction, and a max reduction is refused
with an AssertionError. -/
theorem c7_eqv2_head_dispatch_witness :
    eqv2_create_output_head ⟨"band_gap", .graph "mean", 3, 1⟩ = .ok (.energyHead "mean")
    ∧ ∃ msg, eqv2_create_output_head ⟨"band_gap", .graph "max", 3, 1⟩ =
        .error (.assertError msg) :=
  ⟨(c7_eqv2_head_dispatch "band_gap" 3 1).2.2.2.1 "mean" (Or.inr rfl),
   (c7_eqv2_head_dispatch "band_gap" 3 1).2.2.2.2.2.2.1 "max" (by decide) (by decide)⟩

/-- C9: the two activation-name resolvers agree extensionally in the claimed
sense: for every input string, either both return the same activation class,
or both raise a ValueError (on exactly the same inputs; the model.py variant
interpolates the lowercased name into the message, the util.py variant the
original name). -/
theorem c9_activation_resolvers_agree (s : String) :
    (∃ c, _get_activation_cls s = .ok c ∧ get_activation_cls s = .ok c)
    ∨ (_get_activation_cls s =
        .error (.valueError ("Activation " ++ pyLower s ++ " is not supported"))
      ∧ get_activation_cls s =
        .error (.valueError ("Activation " ++ s ++ " is not supported"))) := by
  unfold _get_activation_cls get_activation_cls
  by_cases h1 : pyLower s = "relu"
  · exact Or.inl ⟨.ReLU, by simp [h1], by rw [h1]; rfl⟩
  by_cases h2 : pyLower s = "silu"
  · exact Or.inl ⟨.SiLU, by simp [h1, h2], by rw [h2]; rfl⟩
  by_cases h3 : pyLower s = "swish"
  · exact Or.inl ⟨.SiLU, by simp [h1, h2, h3], by rw [h3]; rfl⟩
  by_cases h4 : pyLower s = "scaled_silu"
  · exact Or.inl ⟨.ScaledSiLU, by simp [h1, h2, h3, h4], by rw [h4]; rfl⟩
  by_cases h5 : pyLower s = "scaled_swish"
  · exact Or.inl ⟨.ScaledSiLU, by simp [h1, h2, h3, h4, h5], by rw [h5]; rfl⟩
  by_cases h6 : pyLower s = "tanh"
  · exact Or.inl ⟨.Tanh, by simp [h1, h2, h3, h4, h5, h6], by rw [h6]; rfl⟩
  by_cases h7 : pyLower s = "sigmoid"
  · exact Or.inl ⟨.Sigmoid, by simp [h1, h2, h3, h4, h5, h6, h7], by rw [h7]; rfl⟩
  by_cases h8 : pyLower s = "identity"
  · exact Or.inl ⟨.Identity, by simp [h1, h2, h3, h4, h5, h6, h7, h8], by rw [h8]; rfl⟩
  refine Or.inr ⟨by simp [h1, h2, h3, h4, h5, h6, h7, h8], ?_⟩
  split
  all_goals first
    | rfl
    | (rename_i heq; exact absurd heq (by assumption))

theorem pyInt_of_nonneg (q : ℚ) (h : 0 ≤ q) : pyInt q = ⌊q⌋ := by
  rw [Rat.floor_def, pyInt]
  exact Int.tdiv_eq_ediv (Rat.num_nonneg.mpr h) (by positivity)

theorem pyInt_of_neg (q : ℚ) (h : q < 0) : pyInt q = -⌊-q⌋ := by
  have h2 : 0 ≤ -q := by linarith
  rw [← pyInt_of_nonneg (-q) h2]
  rw [pyInt, pyInt, Rat.neg_num, Rat.neg_den, Int.neg_tdiv]
  ring

/-- Counterexample to C10: from_goc_base_proportions truncates toward zero
rather than flooring; at max_neighbors = -1 the code yields aeaint = 0 while
floor(-1 * 20 / 30) = -1. -/
theorem c10_floor_counterexample :
    (MaxNeighborsConfig.from_goc_base_proportions (-1)).aeaint ≠
      ⌊(((-1 : ℤ) : ℚ) * 20 / 30)⌋ := by
  have hval : (MaxNeighborsConfig.from_goc_base_proportions (-1)).aeaint = 0 := by
    show pyInt (((-1 : ℤ) : ℚ) * 20 / 30) = 0
    rw [pyInt_of_neg _ (by norm_num)]
    norm_num
  rw [hval]
  norm_num

/-- C10 (amended): from_goc_base_proportions computes main = n and each other
field as the truncation toward zero of n * f / 30 (Python float division
modelled as exact rational division); for 0 ≤ n this truncation equals the
floor of the exact quotient, and n = 30 yields the documented GOC base
proportions main=30, aeaint=20, qint=8, aint=1000. -/
theorem c10_truncating_division (n : ℤ) :
    (MaxNeighborsConfig.from_goc_base_proportions n).main = n
    ∧ (0 ≤ n →
        (MaxNeighborsConfig.from_goc_base_proportions n).aeaint = ⌊((n : ℚ) * 20 / 30)⌋ ∧
        (MaxNeighborsConfig.from_goc_base_proportions n).qint = ⌊((n : ℚ) * 8 / 30)⌋ ∧
        (MaxNeighborsConfig.from_goc_base_proportions n).aint = ⌊((n : ℚ) * 1000 / 30)⌋)
    ∧ MaxNeighborsConfig.from_goc_base_proportions 30 = ⟨30, 20, 8, 1000⟩ := by
  refine ⟨rfl, ?_, ?_⟩
  · intro hn
    have hc : (0 : ℚ) ≤ (n : ℚ) := by exact_mod_cast hn
    refine ⟨?_, ?_, ?_⟩ <;>
      · show pyInt _ = _
        rw [pyInt_of_nonneg _ (div_nonneg (mul_nonneg hc (by norm_num)) (by norm_num))]
  · simp only [MaxNeighborsConfig.from_goc_base_proportions, MaxNeighborsConfig.mk.injEq]
    norm_num
    refine ⟨?_, ?_, ?_⟩ <;>
      · rw [pyInt_of_nonneg _ (by norm_num)]
        norm_num

/-- Witness for c10_truncating_division: at n = 7 the nonnegative case gives
aeaint = floor(7 * 20 / 30) = 4. -/
theorem c10_truncating_division_witness :
    (MaxNeighborsConfig.from_goc_base_proportions 7).aeaint = ⌊(((7 : ℤ) : ℚ) * 20 / 30)⌋ :=
  ((c10_truncating_division 7).2.1 (by norm_num)).1
